import Mathlib

/-!
Verification of the scan-normalization and cross-scan comparison engine of the
`vulnera` security-assistant repository (`security-assistant.service`).
The external effects (filesystem detection, child-process scanner invocation,
JSON parsing, clock, path resolution) are abstracted as explicit inputs; every
data structure and every decision function below is translated directly from
the TypeScript source.
-/

/-! ## Severity model (security-assistant.data) -/

/-- SeverityLevel: closed enumeration 'critical' | 'high' | 'moderate' | 'low' | 'info'. -/
inductive SeverityLevel where
  | critical
  | high
  | moderate
  | low
  | info
deriving DecidableEq

/-- SEVERITY_ORDER from security-assistant.data. -/
def SEVERITY_ORDER : List SeverityLevel :=
  [.critical, .high, .moderate, .low, .info]

/-- SEVERITY_SCORE from security-assistant.data: critical=100, high=80, moderate=50, low=20, info=5. -/
def SEVERITY_SCORE : SeverityLevel → Nat
  | .critical => 100
  | .high => 80
  | .moderate => 50
  | .low => 20
  | .info => 5

/-- The string form of a severity level (what `${severity}` interpolates in templates
and what the raw JSON severity strings are compared against). -/
def severityName : SeverityLevel → String
  | .critical => "critical"
  | .high => "high"
  | .moderate => "moderate"
  | .low => "low"
  | .info => "info"

/-- The `SEVERITY_ORDER.includes(severityString)` test of the npm adapter, fused with the
cast `as SeverityLevel`: a raw string is recognized exactly when it is one of the five
enumeration values. -/
def parseSeverityLevel (s : String) : Option SeverityLevel :=
  if s = "critical" then some .critical
  else if s = "high" then some .high
  else if s = "moderate" then some .moderate
  else if s = "low" then some .low
  else if s = "info" then some .info
  else none

/-- The per-severity counters `Record<SeverityLevel, number>`. -/
structure SeverityCounts where
  critical : Nat := 0
  high : Nat := 0
  moderate : Nat := 0
  low : Nat := 0
  info : Nat := 0
deriving DecidableEq

/-- Read one counter (`counts[s]`). -/
def SeverityCounts.get (c : SeverityCounts) : SeverityLevel → Nat
  | .critical => c.critical
  | .high => c.high
  | .moderate => c.moderate
  | .low => c.low
  | .info => c.info

/-- Increment one counter (`counts[sev]++`). -/
def SeverityCounts.inc (c : SeverityCounts) : SeverityLevel → SeverityCounts
  | .critical => { c with critical := c.critical + 1 }
  | .high => { c with high := c.high + 1 }
  | .moderate => { c with moderate := c.moderate + 1 }
  | .low => { c with low := c.low + 1 }
  | .info => { c with info := c.info + 1 }

/-! ## Canonical vulnerability model -/

/-- The tri-shape fix availability of a normalized Vulnerability:
`fixAvailable?: string | boolean` in the data model, with `absent` for `undefined`. -/
inductive FixAvailable where
  | absent
  | flag (b : Bool)
  | version (s : String)
deriving DecidableEq

/-- Vulnerability from security-assistant.data (npm path leaves `id` unset; pip path
leaves `via` unset). -/
structure Vulnerability where
  name : String
  severity : SeverityLevel
  title : Option String := none
  id : Option String := none
  range : Option String := none
  fixAvailable : FixAvailable := .absent
  via : Option (List String) := none
  isDirect : Option Bool := none
  description : Option String := none
deriving DecidableEq

/-- AuditSummary from security-assistant.data. -/
structure AuditSummary where
  counts : SeverityCounts
  totalVulnerabilities : Nat
  hasCriticalOrHigh : Bool
  vulnerabilities : List Vulnerability
deriving DecidableEq

/-- The all-zero summary returned when no project is detected or the npm audit
produced nothing usable. -/
def emptyAuditSummary : AuditSummary :=
  { counts := {}, totalVulnerabilities := 0, hasCriticalOrHigh := false, vulnerabilities := [] }

/-! ## Raw npm audit shapes (interface NpmAuditJson, simplified as in the source) -/

/-- One entry of the raw `via` array: a plain string or an advisory object with an
optional title. -/
inductive NpmViaItem where
  | str (s : String)
  | obj (title : Option String)
deriving DecidableEq

/-- The raw `via` field: absent, a bare string, or an array of strings/objects. -/
inductive NpmViaRaw where
  | absent
  | str (s : String)
  | arr (items : List NpmViaItem)
deriving DecidableEq

/-- The raw `fixAvailable` field: absent, a boolean flag, an object that may carry a
version, or (as the normalizer's `typeof === 'string'` arm anticipates) a bare string. -/
inductive NpmFixRaw where
  | absent
  | flag (b : Bool)
  | obj (name : Option String) (version : Option String)
  | str (s : String)
deriving DecidableEq

/-- interface NpmAuditVuln. -/
structure NpmAuditVuln where
  severity : Option String := none
  via : NpmViaRaw := .absent
  isDirect : Option Bool := none
  effects : Option (List String) := none
  range : Option String := none
  fixAvailable : NpmFixRaw := .absent
deriving DecidableEq

/-- The optional `metadata.vulnerabilities` block of pre-aggregated counts. -/
structure NpmMetaCounts where
  info : Option Nat := none
  low : Option Nat := none
  moderate : Option Nat := none
  high : Option Nat := none
  critical : Option Nat := none
deriving DecidableEq

/-- interface NpmAuditJson: `vulnerabilities` is `Object.entries` of the per-package
record, in insertion order; `none` models an absent field. -/
structure NpmAuditJson where
  auditReportVersion : Option Nat := none
  vulnerabilities : Option (List (String × NpmAuditVuln)) := none
  metadata : Option (Option NpmMetaCounts) := none
deriving DecidableEq

/-! ## Raw pip-audit shapes (type PipAuditJson) -/

/-- interface PipAuditVuln. -/
structure PipAuditVuln where
  id : Option String := none
  fix_versions : Option (List String) := none
  description : Option String := none
  known_severity : Option String := none
deriving DecidableEq

/-- interface PipAuditDep (`vulns` is read defensively as `dep.vulns ?? []`). -/
structure PipAuditDep where
  name : String
  version : String
  vulns : Option (List PipAuditVuln) := none
deriving DecidableEq

/-- type PipAuditJson: a bare dependency array, or an object exposing the array under
`dependencies` or `vulnerabilities`. -/
inductive PipAuditJson where
  | arr (deps : List PipAuditDep)
  | obj (version : Option Nat) (dependencies : Option (List PipAuditDep))
      (vulnerabilities : Option (List PipAuditDep))
deriving DecidableEq

/-! ## Adapter B: normalizePipAuditToSummary -/

/-- The adapter's severity-name translation table `severityMap` ("medium" → moderate). -/
def pipSeverityMap (s : String) : Option SeverityLevel :=
  if s = "critical" then some .critical
  else if s = "high" then some .high
  else if s = "medium" then some .moderate
  else if s = "moderate" then some .moderate
  else if s = "low" then some .low
  else if s = "info" then some .info
  else none

/-- The severity of one pip finding:
`(sevRaw && severityMap[sevRaw]) ? severityMap[sevRaw] : 'high'` over
`sevRaw = v.known_severity?.toLowerCase()`.  A missing, empty or unrecognized raw
severity falls back to high. -/
def pipSeverity (raw : Option String) : SeverityLevel :=
  match raw with
  | none => .high
  | some s =>
    let lower := s.toLower
    if lower = "" then .high
    else
      match pipSeverityMap lower with
      | some sev => sev
      | none => .high

/-- One normalized pip finding (the object pushed inside the loop). -/
def mkPipVuln (depName depVersion : String) (v : PipAuditVuln) : Vulnerability :=
  let fixVer := (v.fix_versions.getD []).head?
  { name := depName
    severity := pipSeverity v.known_severity
    title :=
      match v.id with
      | some i => some i
      | none => v.description.map (fun d => d.take 80)
    id := v.id
    range := some depVersion
    fixAvailable :=
      match fixVer with
      | some s => .version s
      | none => .flag false
    description := v.description
    isDirect := some true }

/-- The dependency list: `Array.isArray(audit) ? audit : audit.dependencies ?? audit.vulnerabilities ?? []`. -/
def pipDeps (audit : PipAuditJson) : List PipAuditDep :=
  match audit with
  | .arr deps => deps
  | .obj _ deps vulns =>
    match deps with
    | some d => d
    | none => vulns.getD []

/-- The (dep, finding) pairs the two nested `for` loops enumerate, in order. -/
def pipEntries (audit : PipAuditJson) : List (String × String × PipAuditVuln) :=
  (pipDeps audit).flatMap fun dep => (dep.vulns.getD []).map fun v => (dep.name, dep.version, v)

/-- The body of the loop: count the severity and append the normalized finding
(after the `SEVERITY_ORDER.includes(sev)` guard). -/
def pipStep (acc : SeverityCounts × List Vulnerability) (e : String × String × PipAuditVuln) :
    SeverityCounts × List Vulnerability :=
  let sev := pipSeverity e.2.2.known_severity
  if sev ∈ SEVERITY_ORDER then
    (acc.1.inc sev, acc.2 ++ [mkPipVuln e.1 e.2.1 e.2.2])
  else acc

/-- normalizePipAuditToSummary: counts are recomputed by iterating every finding. -/
def normalizePipAuditToSummary (audit : PipAuditJson) : AuditSummary :=
  let r := (pipEntries audit).foldl pipStep ({}, [])
  { counts := r.1
    totalVulnerabilities := r.2.length
    hasCriticalOrHigh := r.1.critical != 0 || r.1.high != 0
    vulnerabilities := r.2 }

/-! ## Adapter A: the npm-audit normalization inside getAuditSummary -/

/-- The metadata-sourced count for one level:
`(audit.metadata?.vulnerabilities ?? {})[s] ?? 0`. -/
def npmMetaCount (audit : NpmAuditJson) (s : SeverityLevel) : Nat :=
  match audit.metadata.bind id with
  | none => 0
  | some m =>
    (match s with
     | .info => m.info
     | .low => m.low
     | .moderate => m.moderate
     | .high => m.high
     | .critical => m.critical).getD 0

/-- The counts record filled from the metadata block (never from the enumerated list). -/
def buildNpmCounts (audit : NpmAuditJson) : SeverityCounts :=
  { critical := npmMetaCount audit .critical
    high := npmMetaCount audit .high
    moderate := npmMetaCount audit .moderate
    low := npmMetaCount audit .low
    info := npmMetaCount audit .info }

/-- `const via = Array.isArray(v.via) ? v.via : v.via ? [v.via] : []` (a bare empty
string is falsy and yields the empty array). -/
def npmViaList : NpmViaRaw → List NpmViaItem
  | .arr items => items
  | .str s => if s = "" then [] else [.str s]
  | .absent => []

/-- `const firstVia = typeof via[0] === 'string' ? via[0] : via[0]?.title`. -/
def npmFirstVia (v : NpmViaRaw) : Option String :=
  match (npmViaList v).head? with
  | some (.str s) => some s
  | some (.obj t) => t
  | none => none

/-- `viaStrings = Array.isArray(v.via) ? v.via.map(x => typeof x === 'string' ? x : x?.title ?? '') : undefined`. -/
def npmViaStrings (v : NpmViaRaw) : Option (List String) :=
  match v with
  | .arr items =>
    some (items.map fun it =>
      match it with
      | .str s => s
      | .obj t => t.getD "")
  | _ => none

/-- `via: viaStrings?.length ? viaStrings : undefined` (a zero length is falsy). -/
def npmViaField (v : NpmViaRaw) : Option (List String) :=
  match npmViaStrings v with
  | some l => if l.length = 0 then none else some l
  | none => none

/-- The three-way normalization of the raw `fixAvailable` field: an object carrying a
truthy version yields that version; booleans and bare strings pass through; anything
else (incl. an object without a usable version) is absent. -/
def npmFixVersion : NpmFixRaw → FixAvailable
  | .obj _ (some ver) => if ver = "" then .absent else .version ver
  | .obj _ none => .absent
  | .flag b => .flag b
  | .str s => .version s
  | .absent => .absent

/-- The Vulnerability pushed for one enumerated npm finding with recognized severity. -/
def mkNpmVuln (name : String) (v : NpmAuditVuln) (severity : SeverityLevel) : Vulnerability :=
  let firstVia := npmFirstVia v.via
  { name := name
    severity := severity
    title := firstVia
    range := v.range
    fixAvailable := npmFixVersion v.fixAvailable
    via := npmViaField v.via
    isDirect := v.isDirect
    description :=
      match firstVia with
      | some t => if t = "" then none else some (name ++ ": " ++ t)
      | none => none }

/-- One loop iteration of Adapter A: severity defaults to "moderate" when absent and a
severity outside SEVERITY_ORDER makes the whole finding `continue` (skipped). -/
def npmVulnEntry (e : String × NpmAuditVuln) : Option Vulnerability :=
  match parseSeverityLevel (e.2.severity.getD "moderate") with
  | some sev => some (mkNpmVuln e.1 e.2 sev)
  | none => none

/-- The AuditSummary built on the node path once `audit.vulnerabilities` exists:
metadata-sourced counts, list-sourced total. -/
def normalizeNpmAudit (audit : NpmAuditJson) (entries : List (String × NpmAuditVuln)) :
    AuditSummary :=
  let counts := buildNpmCounts audit
  let vulnerabilities := entries.filterMap npmVulnEntry
  { counts := counts
    totalVulnerabilities := vulnerabilities.length
    hasCriticalOrHigh := counts.critical != 0 || counts.high != 0
    vulnerabilities := vulnerabilities }

/-! ## getAuditSummary over an abstracted scan environment -/

/-- ProjectType of detectProjectType. -/
inductive ProjectType where
  | node
  | python
deriving DecidableEq

/-- The effectful context getAuditSummary runs in, abstracted: `projectType` is the
result of detectProjectType on the project root; `npmAudit` is the result of
runAudit (`none` = package.json missing, or `npm audit --json` output missing or
unparsable as JSON); `pipAudit` is the result of runPipAudit (`none` = no
requirements.txt/pyproject.toml, or raw output missing/unparsable after both the
`pip-audit` and `python -m pip_audit` invocation attempts). -/
structure ScanEnv where
  projectType : Option ProjectType
  npmAudit : Option NpmAuditJson
  pipAudit : Option PipAuditJson
deriving DecidableEq

/-- The remediation error thrown on the pip path when the audit produced nothing. -/
def pipAuditFailedMessage : String :=
  "Python project detected but audit failed. Install pip-audit (pip install pip-audit) and ensure Python is on PATH. Try: pip-audit -r requirements.txt or pip-audit . in the project directory."

/-- getAuditSummary: python path hard-fails when runPipAudit returned null; a project
root with no recognized manifest yields the empty summary; the node path yields the
empty summary when runAudit returned null or reported no `vulnerabilities` record,
else normalizes it. -/
def getAuditSummary (env : ScanEnv) : Except String AuditSummary :=
  match env.projectType with
  | some .python =>
    match env.pipAudit with
    | some audit => .ok (normalizePipAuditToSummary audit)
    | none => .error pipAuditFailedMessage
  | none => .ok emptyAuditSummary
  | some .node =>
    match env.npmAudit with
    | none => .ok emptyAuditSummary
    | some audit =>
      match audit.vulnerabilities with
      | none => .ok emptyAuditSummary
      | some entries => .ok (normalizeNpmAudit audit entries)

/-! ## Decision derivation: ship readiness -/

/-- ShipReadiness from security-assistant.data. -/
structure ShipReadiness where
  safeToShip : Bool
  reason : String
  critical : Nat
  high : Nat
  moderate : Nat
  low : Nat
  recommendation : Option String := none
deriving DecidableEq

/-- Reason template (a): zero total findings. -/
def shipReasonNoVulns : String :=
  "No known vulnerabilities were found in your dependencies. It is reasonable to ship."

/-- Reason template (b): no critical/high, quoting the exact moderate and low counts. -/
def shipReasonModerateLow (moderate low : Nat) : String :=
  "There are no critical or high severity issues. You have " ++ toString moderate ++
    " moderate and " ++ toString low ++
    " low severity findings. Shipping is acceptable from a severity standpoint, but consider scheduling fixes."

/-- Reason template (c): blocking severities, quoting the exact critical and high counts. -/
def shipReasonCriticalHigh (critical high : Nat) : String :=
  "There are " ++ toString critical ++ " critical and " ++ toString high ++
    " high severity vulnerabilities. Do not ship until these are addressed."

/-- The pure part of getShipReadiness over an already-computed AuditSummary. -/
def getShipReadinessOf (summary : AuditSummary) : ShipReadiness :=
  let critical := summary.counts.critical
  let high := summary.counts.high
  let moderate := summary.counts.moderate
  let low := summary.counts.low
  let safeToShip := !summary.hasCriticalOrHigh
  if safeToShip && summary.totalVulnerabilities == 0 then
    { safeToShip := safeToShip, reason := shipReasonNoVulns,
      critical := critical, high := high, moderate := moderate, low := low,
      recommendation := some "Keep running security checks regularly." }
  else if safeToShip then
    { safeToShip := safeToShip, reason := shipReasonModerateLow moderate low,
      critical := critical, high := high, moderate := moderate, low := low,
      recommendation := some "Run the \"suggest_upgrades\" tool to get concrete upgrade steps for moderate/low issues." }
  else
    { safeToShip := safeToShip, reason := shipReasonCriticalHigh critical high,
      critical := critical, high := high, moderate := moderate, low := low,
      recommendation := some "Use \"suggest_upgrades\" to get exact upgrade commands, then run them and re-check with \"is_app_safe_to_ship\"." }

/-- getShipReadiness: audit the environment, then derive the verdict. -/
def getShipReadiness (env : ScanEnv) : Except String ShipReadiness :=
  (getAuditSummary env).map getShipReadinessOf

/-! ## Decision derivation: highest-risk dependency -/

/-- The comparator `(a, b) => SEVERITY_SCORE[b.severity] - SEVERITY_SCORE[a.severity]`
as the "may precede" Boolean relation of a stable sort: `a` may come before `b`
exactly when the comparator is non-positive. -/
def scoreDescLE (a b : Vulnerability) : Bool :=
  decide (SEVERITY_SCORE b.severity ≤ SEVERITY_SCORE a.severity)

/-- The truthy rendering of a fixAvailable value inside a template literal:
`undefined`, `false` and `""` are falsy; `true` interpolates as "true". -/
def fixAvailableText : FixAvailable → Option String
  | .version s => if s = "" then none else some s
  | .flag b => if b then some "true" else none
  | .absent => none

/-- Result shape of getHighestRiskDependency. -/
structure HighestRiskResult where
  highest : Option Vulnerability
  summary : String
  allBySeverity : List Vulnerability
deriving DecidableEq

/-- The pure part of getHighestRiskDependency over an already-computed AuditSummary:
`[...vulnerabilities].sort(byScoreDesc)` (a stable sort), `sorted[0] ?? null`. -/
def getHighestRiskDependencyOf (summary : AuditSummary) : HighestRiskResult :=
  let sorted := summary.vulnerabilities.mergeSort scoreDescLE
  let highest := sorted.head?
  let summaryText :=
    match highest with
    | none => "No vulnerabilities found in this codebase."
    | some h =>
      "Highest risk: **" ++ h.name ++ "** (" ++ severityName h.severity ++ "). " ++
        ((h.title.orElse fun _ => h.description).getD "No description.") ++
        (match fixAvailableText h.fixAvailable with
         | some fx => " Fix available: " ++ fx ++ "."
         | none => "")
  { highest := highest, summary := summaryText, allBySeverity := sorted }

/-! ## Decision derivation: upgrade suggestions -/

/-- UpgradeSuggestion from security-assistant.data. -/
structure UpgradeSuggestion where
  package : String
  current : String
  target : String
  severity : SeverityLevel
  action : String
  isSemverCompatible : Option Bool := none
deriving DecidableEq

/-- The `!v.fixAvailable` truthiness test: absent, `false` and `""` are falsy. -/
def fixTruthy : FixAvailable → Bool
  | .absent => false
  | .flag b => b
  | .version s => s != ""

/-- `typeof v.fixAvailable === 'string' ? v.fixAvailable : 'latest'`. -/
def suggestionTarget : FixAvailable → String
  | .version s => s
  | _ => "latest"

/-- The suggestion pushed for one finding with a usable fix. -/
def mkUpgradeSuggestion (isPip : Bool) (v : Vulnerability) : UpgradeSuggestion :=
  let target := suggestionTarget v.fixAvailable
  { package := v.name
    current := v.range.getD "unknown"
    target := target
    severity := v.severity
    action :=
      if isPip then "pip install " ++ v.name ++ "==" ++ target
      else "npm install " ++ v.name ++ "@" ++ target
    isSemverCompatible := none }

/-- The collection loop: `if (!v.fixAvailable || seen.has(v.name)) continue;` then push
and mark the package seen (first fix per package wins). -/
def collectSuggestions (isPip : Bool) : List Vulnerability → List String → List UpgradeSuggestion
  | [], _ => []
  | v :: rest, seen =>
    if fixTruthy v.fixAvailable && !seen.contains v.name then
      mkUpgradeSuggestion isPip v :: collectSuggestions isPip rest (v.name :: seen)
    else
      collectSuggestions isPip rest seen

/-- The comparator of the final prioritization sort over suggestions. -/
def suggestionScoreDescLE (a b : UpgradeSuggestion) : Bool :=
  decide (SEVERITY_SCORE b.severity ≤ SEVERITY_SCORE a.severity)

/-- The pure part of getUpgradeSuggestions over the detected project type and the
already-computed AuditSummary. -/
def getUpgradeSuggestionsOf (projectType : Option ProjectType) (audit : AuditSummary) :
    List UpgradeSuggestion × String :=
  let isPip := decide (projectType = some ProjectType.python)
  let suggestions :=
    (collectSuggestions isPip audit.vulnerabilities []).mergeSort suggestionScoreDescLE
  let summaryText :=
    if suggestions.length = 0 then
      "No upgrade fixes available from the audit (or no vulnerabilities). Consider updating packages manually or checking for major-version upgrades."
    else
      "Apply these " ++ toString suggestions.length ++
        " upgrade(s) in order of priority (critical/high first):"
  (suggestions, summaryText)

/-! ## Scan history and comparator -/

/-- MAX_SCANS_PER_REPO. -/
def MAX_SCANS_PER_REPO : Nat := 20

/-- SavedScan from security-assistant.data. -/
structure SavedScan where
  id : String
  repoId : String
  ref : Option String := none
  subpath : Option String := none
  scannedAt : String
  summary : AuditSummary
  projectType : Option ProjectType := none
deriving DecidableEq

/-- One snapshot of a scan inside a CompareScansResult. -/
structure ScanSnapshot where
  scannedAt : String
  counts : SeverityCounts
  totalVulnerabilities : Nat
deriving DecidableEq

/-- CompareScansResult from security-assistant.data (`isFirstScan` is optional and
only set on the first-scan branch). -/
structure CompareScansResult where
  repoId : String
  baseline : ScanSnapshot
  current : ScanSnapshot
  fixed : List Vulnerability
  introduced : List Vulnerability
  summary : String
  isFirstScan : Option Bool := none
deriving DecidableEq

/-- The static in-memory `scanStore` map, as a total function with `store.get(k) ?? []`
folded in (an unseen key and an empty history are observationally identical). -/
abbrev ScanStore := String → List SavedScan

/-- The metadata argument of compareScansOverTime. -/
structure ScanMeta where
  ref : Option String := none
  subpath : Option String := none
  projectType : Option ProjectType := none
deriving DecidableEq

/-- The diff key: `${v.name}:${v.severity}` — package name and severity only. -/
def vulnKey (v : Vulnerability) : String :=
  v.name ++ ":" ++ severityName v.severity

/-- diffVulnerabilities: fixed = baseline entries whose key is not in the current
key-set; introduced = current entries whose key is not in the baseline key-set. -/
def diffVulnerabilities (baseline current : List Vulnerability) :
    List Vulnerability × List Vulnerability :=
  let currentSet := current.map vulnKey
  let baselineSet := baseline.map vulnKey
  (baseline.filter fun v => !currentSet.contains (vulnKey v),
   current.filter fun v => !baselineSet.contains (vulnKey v))

/-- `[...list, scan].slice(-MAX_SCANS_PER_REPO)`: the last `n` elements. -/
def sliceLast (n : Nat) (l : List α) : List α :=
  l.drop (l.length - n)

/-- The first-scan summary text. -/
def firstScanMessage (repoId : String) (total : Nat) : String :=
  "First scan saved for **" ++ repoId ++ "**. Total: " ++ toString total ++
    " vulnerability(ies). Run this tool again after making changes to compare over time."

/-- The comparison summary text with counts of fixed/introduced and the signed delta. -/
def comparedMessage (repoId baselineAt currentAt : String)
    (totalFixed totalIntroduced : Nat) (delta : Int) : String :=
  let s := "Compared **" ++ repoId ++ "**: baseline " ++ baselineAt ++ " → current " ++
    currentAt ++ ". "
  let s := if totalFixed > 0 then s ++ "**" ++ toString totalFixed ++ "** fixed. " else s
  let s :=
    if totalIntroduced > 0 then
      s ++ "**" ++ toString totalIntroduced ++ "** new or reintroduced. "
    else s
  s ++ "Total change: " ++ (if delta ≥ 0 then "+" else "") ++ toString delta ++
    " vulnerability(ies)."

/-- compareScansOverTime: append the new scan (truncating the key's history to the
most recent MAX_SCANS_PER_REPO entries), then either report a first scan or diff
against the immediately preceding saved scan.  The wall clock and the generated scan
id are passed in explicitly. -/
def compareScansOverTime (store : ScanStore) (repoId : String)
    (currentSummary : AuditSummary) (options : ScanMeta) (scannedAt scanId : String) :
    CompareScansResult × ScanStore :=
  let scan : SavedScan :=
    { id := scanId, repoId := repoId, ref := options.ref, subpath := options.subpath,
      scannedAt := scannedAt, summary := currentSummary,
      projectType := options.projectType }
  let list := store repoId
  let previous := list.getLast?
  let newList := sliceLast MAX_SCANS_PER_REPO (list ++ [scan])
  let newStore : ScanStore := fun k => if k = repoId then newList else store k
  let currentSnapshot : ScanSnapshot :=
    { scannedAt := scannedAt, counts := currentSummary.counts,
      totalVulnerabilities := currentSummary.totalVulnerabilities }
  let result : CompareScansResult :=
    match previous with
    | none =>
      { repoId := repoId, baseline := currentSnapshot, current := currentSnapshot,
        fixed := [], introduced := [],
        summary := firstScanMessage repoId currentSummary.totalVulnerabilities,
        isFirstScan := some true }
    | some prev =>
      let d := diffVulnerabilities prev.summary.vulnerabilities currentSummary.vulnerabilities
      let delta : Int :=
        (currentSummary.totalVulnerabilities : Int) - (prev.summary.totalVulnerabilities : Int)
      { repoId := repoId
        baseline :=
          { scannedAt := prev.scannedAt, counts := prev.summary.counts,
            totalVulnerabilities := prev.summary.totalVulnerabilities }
        current := currentSnapshot
        fixed := d.1
        introduced := d.2
        summary := comparedMessage repoId prev.scannedAt scannedAt d.1.length d.2.length delta
        isFirstScan := none }
  (result, newStore)

/-- One caller-supplied input of a compareScansOverTime call (summary, metadata,
timestamp, generated id). -/
structure CompareCallInput where
  summary : AuditSummary
  options : ScanMeta
  scannedAt : String
  scanId : String
deriving DecidableEq

/-- The SavedScan a call with the given input appends under the given key. -/
def mkSavedScan (repoId : String) (inp : CompareCallInput) : SavedScan :=
  { id := inp.scanId, repoId := repoId, ref := inp.options.ref,
    subpath := inp.options.subpath, scannedAt := inp.scannedAt,
    summary := inp.summary, projectType := inp.options.projectType }

/-- Iterate compareScansOverTime over a sequence of calls against one key, tracking
only the store. -/
def compareScanFold (repoId : String) (store : ScanStore)
    (inputs : List CompareCallInput) : ScanStore :=
  inputs.foldl
    (fun st inp =>
      (compareScansOverTime st repoId inp.summary inp.options inp.scannedAt inp.scanId).2)
    store

/-! ## Target identity resolution -/

/-- `\w`: ASCII letter, digit or underscore. -/
def isWordChar (c : Char) : Bool :=
  c.isAlphanum || c = '_'

/-- The character class `[-.\w]` of the owner/repo captures. -/
def isOwnerChar (c : Char) : Bool :=
  isWordChar c || c = '-' || c = '.'

/-- Strip a literal character sequence from the front, or fail. -/
def stripLit : List Char → List Char → Option (List Char)
  | [], cs => some cs
  | _ :: _, [] => none
  | l :: ls, c :: cs => if c = l then stripLit ls cs else none

/-- Try the regex `github\.com[/:](\w(?:[-.\w])*)\/(\w(?:[-.\w])*)` anchored at the
head of the character list.  The capture classes exclude `/`, so the greedy runs
never backtrack. -/
def matchGithubAt (cs : List Char) : Option (String × String) :=
  match stripLit "github.com".toList cs with
  | none => none
  | some rest =>
    match rest with
    | [] => none
    | sep :: rest2 =>
      if sep = '/' || sep = ':' then
        match rest2 with
        | [] => none
        | c :: rest3 =>
          if isWordChar c then
            let own := rest3.span isOwnerChar
            match own.2 with
            | '/' :: rest4 =>
              match rest4 with
              | [] => none
              | d :: rest5 =>
                if isWordChar d then
                  let rep := rest5.span isOwnerChar
                  some (String.mk (c :: own.1), String.mk (d :: rep.1))
                else none
            | _ => none
          else none
      else none

/-- Scan for the first position where the GitHub regex matches (`String.match`). -/
def searchGithub : List Char → Option (String × String)
  | [] => none
  | c :: cs =>
    match matchGithubAt (c :: cs) with
    | some r => some r
    | none => searchGithub cs

/-- Substring test (`String.includes`). -/
def listHasSub (needle : List Char) : List Char → Bool
  | [] => needle.isEmpty
  | c :: cs => needle.isPrefixOf (c :: cs) || listHasSub needle cs

/-- Whitespace trim of both ends (`String.trim`), over the character list. -/
def trimChars (cs : List Char) : List Char :=
  ((cs.dropWhile Char.isWhitespace).reverse.dropWhile Char.isWhitespace).reverse

/-- Suffix test (`String.endsWith`), over character lists. -/
def endsWithChars (suf cs : List Char) : Bool :=
  suf.reverse.isPrefixOf cs.reverse

/-- Single-character `String.split` (JS semantics: "" splits to [""], empty segments
are kept). -/
def splitChar (sep : Char) : List Char → List (List Char)
  | [] => [[]]
  | c :: cs =>
    match splitChar sep cs with
    | [] => [[]]
    | seg :: rest => if c = sep then [] :: seg :: rest else (c :: seg) :: rest

/-- parseGitHubRepo: trim, drop a trailing ".git", then either regex-match a full URL
(when the spec contains "github.com/"), split a shorthand "owner/repo", or fail. -/
def parseGitHubRepo (spec : String) : Except String (String × String) :=
  let t0 := trimChars spec.toList
  let tl := if endsWithChars ".git".toList t0 then t0.take (t0.length - 4) else t0
  if listHasSub "github.com/".toList tl then
    match searchGithub tl with
    | some r => .ok r
    | none => .error ("Invalid GitHub URL: " ++ spec)
  else if listHasSub "/".toList tl then
    let parts := (splitChar '/' tl).map (fun p => String.mk (trimChars p))
    let owner := parts.getD 0 ""
    let repo := parts.getD 1 ""
    if owner = "" || repo = "" then .error ("Invalid GitHub repo: " ++ spec)
    else .ok (owner, repo)
  else
    .error ("Invalid GitHub repo: use \"owner/repo\" or full GitHub URL. Got: " ++ spec)

/-- `subpath.replace(/^\/|\/$/g, '')`: one leading and one trailing slash removed. -/
def trimSlashes (s : String) : String :=
  let cs := s.toList
  let cs1 := match cs with
    | '/' :: rest => rest
    | _ => cs
  let cs2 := if cs1.getLast? = some '/' then cs1.take (cs1.length - 1) else cs1
  String.mk cs2

/-- The options bag of getRepoId. -/
structure RepoIdOptions where
  githubRepo : Option String := none
  ref : Option String := none
  subpath : Option String := none
  projectPath : Option String := none
deriving DecidableEq

/-- JS truthiness of an optional string: absent and "" are falsy. -/
def truthyOptStr : Option String → Bool
  | none => false
  | some s => s != ""

/-- getRepoId: `owner/repo`, `owner/repo:subpath` (subpath trimmed of leading/trailing
slashes; an all-slash subpath degenerates to no subpath), or `local:<absolute path>`.
`resolvePath` abstracts node's `resolve` against the process working directory `cwd`;
the ref option is never consulted. -/
def getRepoId (resolvePath : String → String) (cwd : String) (options : RepoIdOptions) :
    Except String String :=
  if truthyOptStr options.githubRepo then
    match parseGitHubRepo (options.githubRepo.getD "") with
    | .error e => .error e
    | .ok (owner, repo) =>
      let base := owner ++ "/" ++ repo
      match options.subpath with
      | none => .ok base
      | some sp =>
        let sub := trimSlashes sp
        if sub = "" then .ok base else .ok (base ++ ":" ++ sub)
  else
    .ok ("local:" ++
      (if truthyOptStr options.projectPath then resolvePath (options.projectPath.getD "")
       else cwd))

/-! ## Helper lemmas -/

theorem sev_mem_SEVERITY_ORDER (s : SeverityLevel) : s ∈ SEVERITY_ORDER := by
  cases s <;> simp [SEVERITY_ORDER]

theorem SeverityCounts.get_inc (c : SeverityCounts) (sev s : SeverityLevel) :
    (c.inc sev).get s = c.get s + (if sev = s then 1 else 0) := by
  cases sev <;> cases s <;> simp [SeverityCounts.inc, SeverityCounts.get]

theorem pipStep_eq (acc : SeverityCounts × List Vulnerability)
    (e : String × String × PipAuditVuln) :
    pipStep acc e
      = (acc.1.inc (pipSeverity e.2.2.known_severity), acc.2 ++ [mkPipVuln e.1 e.2.1 e.2.2]) := by
  simp [pipStep, sev_mem_SEVERITY_ORDER]

theorem pip_foldl_snd (entries : List (String × String × PipAuditVuln))
    (acc : SeverityCounts × List Vulnerability) :
    (entries.foldl pipStep acc).2
      = acc.2 ++ entries.map (fun e => mkPipVuln e.1 e.2.1 e.2.2) := by
  induction entries generalizing acc with
  | nil => simp
  | cons e t ih => simp [List.foldl_cons, pipStep_eq, ih]

theorem pip_foldl_fst (entries : List (String × String × PipAuditVuln))
    (acc : SeverityCounts × List Vulnerability) (s : SeverityLevel) :
    ((entries.foldl pipStep acc).1).get s
      = acc.1.get s + entries.countP (fun e => decide (pipSeverity e.2.2.known_severity = s)) := by
  induction entries generalizing acc with
  | nil => simp
  | cons e t ih =>
    simp only [List.foldl_cons, pipStep_eq, ih, List.countP_cons, SeverityCounts.get_inc]
    by_cases hsev : pipSeverity e.2.2.known_severity = s <;> simp [hsev] <;> omega

theorem length_filter_severity (l : List Vulnerability) :
    (l.filter fun v => decide (v.severity = SeverityLevel.critical)).length
    + (l.filter fun v => decide (v.severity = SeverityLevel.high)).length
    + (l.filter fun v => decide (v.severity = SeverityLevel.moderate)).length
    + (l.filter fun v => decide (v.severity = SeverityLevel.low)).length
    + (l.filter fun v => decide (v.severity = SeverityLevel.info)).length
    = l.length := by
  induction l with
  | nil => simp
  | cons v t ih => cases h : v.severity <;> simp [List.filter_cons, h] <;> omega

theorem hasCoH_iff (c : SeverityCounts) :
    (c.critical != 0 || c.high != 0) = true ↔ 0 < c.critical ∨ 0 < c.high := by
  simp [Nat.pos_iff_ne_zero]

theorem normalizePip_vulns (audit : PipAuditJson) :
    (normalizePipAuditToSummary audit).vulnerabilities
      = (pipEntries audit).map (fun e => mkPipVuln e.1 e.2.1 e.2.2) := by
  simp [normalizePipAuditToSummary, pip_foldl_snd]

theorem SeverityCounts.get_zero (s : SeverityLevel) : ({} : SeverityCounts).get s = 0 := by
  cases s <;> rfl

theorem normalizePip_counts (audit : PipAuditJson) (s : SeverityLevel) :
    (normalizePipAuditToSummary audit).counts.get s
      = (pipEntries audit).countP (fun e => decide (pipSeverity e.2.2.known_severity = s)) := by
  have h := pip_foldl_fst (pipEntries audit) ({}, []) s
  simpa [normalizePipAuditToSummary, SeverityCounts.get_zero] using h

theorem mkPipVuln_severity (n ver : String) (v : PipAuditVuln) :
    (mkPipVuln n ver v).severity = pipSeverity v.known_severity := rfl

/-- C10: on the pip path the per-severity counts agree exactly with the produced
vulnerability list — for each severity level the counter equals the number of listed
findings with that severity, and the five counters sum to totalVulnerabilities. -/
theorem pip_counts_agree_with_list (audit : PipAuditJson) (s : SeverityLevel) :
    (normalizePipAuditToSummary audit).counts.get s
      = ((normalizePipAuditToSummary audit).vulnerabilities.filter
          (fun v => decide (v.severity = s))).length
    ∧ (normalizePipAuditToSummary audit).counts.critical
        + (normalizePipAuditToSummary audit).counts.high
        + (normalizePipAuditToSummary audit).counts.moderate
        + (normalizePipAuditToSummary audit).counts.low
        + (normalizePipAuditToSummary audit).counts.info
      = (normalizePipAuditToSummary audit).totalVulnerabilities := by
  have key : ∀ t : SeverityLevel,
      (normalizePipAuditToSummary audit).counts.get t
        = ((normalizePipAuditToSummary audit).vulnerabilities.filter
            (fun v => decide (v.severity = t))).length := by
    intro t
    rw [normalizePip_counts, normalizePip_vulns, List.filter_map, List.length_map,
      ← List.countP_eq_length_filter]
    rfl
  refine ⟨key s, ?_⟩
  have htot : (normalizePipAuditToSummary audit).totalVulnerabilities
      = (normalizePipAuditToSummary audit).vulnerabilities.length := by
    simp [normalizePipAuditToSummary]
  have hc := key .critical
  have hh := key .high
  have hm := key .moderate
  have hl := key .low
  have hi := key .info
  simp only [SeverityCounts.get] at hc hh hm hl hi
  rw [hc, hh, hm, hl, hi, htot, length_filter_severity]

theorem summary_invariant_normalizePip (p : PipAuditJson) :
    (normalizePipAuditToSummary p).totalVulnerabilities
      = (normalizePipAuditToSummary p).vulnerabilities.length
    ∧ ((normalizePipAuditToSummary p).hasCriticalOrHigh = true
        ↔ 0 < (normalizePipAuditToSummary p).counts.critical
          ∨ 0 < (normalizePipAuditToSummary p).counts.high) := by
  refine ⟨rfl, ?_⟩
  simp only [normalizePipAuditToSummary]
  exact hasCoH_iff _

theorem summary_invariant_normalizeNpm (audit : NpmAuditJson)
    (entries : List (String × NpmAuditVuln)) :
    (normalizeNpmAudit audit entries).totalVulnerabilities
      = (normalizeNpmAudit audit entries).vulnerabilities.length
    ∧ ((normalizeNpmAudit audit entries).hasCriticalOrHigh = true
        ↔ 0 < (normalizeNpmAudit audit entries).counts.critical
          ∨ 0 < (normalizeNpmAudit audit entries).counts.high) := by
  refine ⟨rfl, ?_⟩
  simp only [normalizeNpmAudit]
  exact hasCoH_iff _

/-- C2: every AuditSummary either adapter can produce (any summary getAuditSummary
returns, plus normalizePipAuditToSummary on raw pip output) satisfies
totalVulnerabilities = length of the vulnerability list and
hasCriticalOrHigh ↔ (counts.critical > 0 or counts.high > 0). -/
theorem audit_summary_invariants (env : ScanEnv) (s : AuditSummary) (p : PipAuditJson)
    (h : getAuditSummary env = Except.ok s) :
    (s.totalVulnerabilities = s.vulnerabilities.length
      ∧ (s.hasCriticalOrHigh = true ↔ 0 < s.counts.critical ∨ 0 < s.counts.high))
    ∧ ((normalizePipAuditToSummary p).totalVulnerabilities
        = (normalizePipAuditToSummary p).vulnerabilities.length
      ∧ ((normalizePipAuditToSummary p).hasCriticalOrHigh = true
          ↔ 0 < (normalizePipAuditToSummary p).counts.critical
            ∨ 0 < (normalizePipAuditToSummary p).counts.high)) := by
  refine ⟨?_, summary_invariant_normalizePip p⟩
  obtain ⟨pt, npm, pip⟩ := env
  rcases pt with _ | pt
  · simp only [getAuditSummary, Except.ok.injEq] at h
    subst h
    exact ⟨rfl, by simp [emptyAuditSummary]⟩
  · cases pt
    · rcases npm with _ | audit
      · simp only [getAuditSummary, Except.ok.injEq] at h
        subst h
        exact ⟨rfl, by simp [emptyAuditSummary]⟩
      · rcases hv : audit.vulnerabilities with _ | entries
        · simp only [getAuditSummary, hv, Except.ok.injEq] at h
          subst h
          exact ⟨rfl, by simp [emptyAuditSummary]⟩
        · simp only [getAuditSummary, hv, Except.ok.injEq] at h
          subst h
          exact summary_invariant_normalizeNpm audit entries
    · rcases pip with _ | paudit
      · simp [getAuditSummary] at h
      · simp only [getAuditSummary, Except.ok.injEq] at h
        subst h
        exact summary_invariant_normalizePip paudit

theorem audit_summary_invariants_witness :
    emptyAuditSummary.totalVulnerabilities = emptyAuditSummary.vulnerabilities.length
    ∧ (emptyAuditSummary.hasCriticalOrHigh = true
        ↔ 0 < emptyAuditSummary.counts.critical ∨ 0 < emptyAuditSummary.counts.high) :=
  (audit_summary_invariants ⟨none, none, none⟩ emptyAuditSummary (PipAuditJson.arr []) rfl).1

/-- C1 counterexample: a project root where the node manifest is detected
(projectType = node) but `npm audit` output is missing or unparsable (runAudit
returned null) makes getAuditSummary return the empty all-zero AuditSummary —
it does not fail with an audit-failed error as the claim asserts. -/
theorem node_unparsable_returns_empty :
    getAuditSummary { projectType := some ProjectType.node, npmAudit := none, pipAudit := none }
      = Except.ok emptyAuditSummary
    ∧ emptyAuditSummary
        = { counts := { critical := 0, high := 0, moderate := 0, low := 0, info := 0 },
            totalVulnerabilities := 0, hasCriticalOrHigh := false, vulnerabilities := [] } :=
  ⟨rfl, rfl⟩

/-- C1 (amended): the hard audit-failed error is raised only on the pip path —
python detected with runPipAudit returning null yields the explicit error; the node
path with missing/unparsable npm audit output instead returns the empty all-zero
summary. -/
theorem audit_failure_policy (e1 e2 : ScanEnv)
    (h1 : e1.projectType = some ProjectType.python) (h2 : e1.pipAudit = none)
    (h3 : e2.projectType = some ProjectType.node) (h4 : e2.npmAudit = none) :
    getAuditSummary e1 = Except.error pipAuditFailedMessage
    ∧ getAuditSummary e2 = Except.ok emptyAuditSummary := by
  obtain ⟨pt1, npm1, pip1⟩ := e1
  obtain ⟨pt2, npm2, pip2⟩ := e2
  simp only at h1 h2 h3 h4
  subst h1 h2 h3 h4
  exact ⟨rfl, rfl⟩

theorem audit_failure_policy_witness :
    getAuditSummary ⟨some ProjectType.python, none, none⟩
      = Except.error pipAuditFailedMessage
    ∧ getAuditSummary ⟨some ProjectType.node, none, none⟩
      = Except.ok emptyAuditSummary :=
  audit_failure_policy ⟨some ProjectType.python, none, none⟩
    ⟨some ProjectType.node, none, none⟩ rfl rfl rfl rfl

theorem getShipReadinessOf_branch_a (s : AuditSummary) (hb : s.hasCriticalOrHigh = false)
    (ht : s.totalVulnerabilities = 0) :
    getShipReadinessOf s =
      { safeToShip := true, reason := shipReasonNoVulns,
        critical := s.counts.critical, high := s.counts.high,
        moderate := s.counts.moderate, low := s.counts.low,
        recommendation := some "Keep running security checks regularly." } := by
  simp [getShipReadinessOf, hb, ht]

theorem getShipReadinessOf_branch_b (s : AuditSummary) (hb : s.hasCriticalOrHigh = false)
    (ht : s.totalVulnerabilities ≠ 0) :
    getShipReadinessOf s =
      { safeToShip := true, reason := shipReasonModerateLow s.counts.moderate s.counts.low,
        critical := s.counts.critical, high := s.counts.high,
        moderate := s.counts.moderate, low := s.counts.low,
        recommendation := some "Run the \"suggest_upgrades\" tool to get concrete upgrade steps for moderate/low issues." } := by
  simp [getShipReadinessOf, hb, ht]

theorem getShipReadinessOf_branch_c (s : AuditSummary) (hb : s.hasCriticalOrHigh = true) :
    getShipReadinessOf s =
      { safeToShip := false, reason := shipReasonCriticalHigh s.counts.critical s.counts.high,
        critical := s.counts.critical, high := s.counts.high,
        moderate := s.counts.moderate, low := s.counts.low,
        recommendation := some "Use \"suggest_upgrades\" to get exact upgrade commands, then run them and re-check with \"is_app_safe_to_ship\"." } := by
  simp [getShipReadinessOf, hb]

/-- C4: under the adapter invariant hasCriticalOrHigh ↔ (critical>0 ∨ high>0), ship
readiness is safe exactly when critical = high = 0 (moderate/low/info counts are
irrelevant), the reported per-severity numbers are the summary's counts, each of the
three reason branches produces its template with the exact quoted counts, and the
three branch conditions are exhaustive and mutually exclusive. -/
theorem ship_readiness_policy (s : AuditSummary)
    (h : s.hasCriticalOrHigh = true ↔ 0 < s.counts.critical ∨ 0 < s.counts.high) :
    ((getShipReadinessOf s).safeToShip = true
      ↔ s.counts.critical = 0 ∧ s.counts.high = 0)
    ∧ ((getShipReadinessOf s).critical = s.counts.critical
      ∧ (getShipReadinessOf s).high = s.counts.high
      ∧ (getShipReadinessOf s).moderate = s.counts.moderate
      ∧ (getShipReadinessOf s).low = s.counts.low)
    ∧ (s.counts.critical = 0 ∧ s.counts.high = 0 ∧ s.totalVulnerabilities = 0 →
        (getShipReadinessOf s).reason = shipReasonNoVulns)
    ∧ (s.counts.critical = 0 ∧ s.counts.high = 0 ∧ s.totalVulnerabilities ≠ 0 →
        (getShipReadinessOf s).reason = shipReasonModerateLow s.counts.moderate s.counts.low)
    ∧ (0 < s.counts.critical ∨ 0 < s.counts.high →
        (getShipReadinessOf s).reason = shipReasonCriticalHigh s.counts.critical s.counts.high)
    ∧ ((s.counts.critical = 0 ∧ s.counts.high = 0 ∧ s.totalVulnerabilities = 0)
        ∨ (s.counts.critical = 0 ∧ s.counts.high = 0 ∧ s.totalVulnerabilities ≠ 0)
        ∨ (0 < s.counts.critical ∨ 0 < s.counts.high))
    ∧ ¬((s.counts.critical = 0 ∧ s.counts.high = 0 ∧ s.totalVulnerabilities = 0)
        ∧ (s.counts.critical = 0 ∧ s.counts.high = 0 ∧ s.totalVulnerabilities ≠ 0))
    ∧ ¬((s.counts.critical = 0 ∧ s.counts.high = 0)
        ∧ (0 < s.counts.critical ∨ 0 < s.counts.high)) := by
  rcases hb : s.hasCriticalOrHigh with _ | _
  · have hz : s.counts.critical = 0 ∧ s.counts.high = 0 := by
      have hno : ¬(0 < s.counts.critical ∨ 0 < s.counts.high) := fun hx => by
        have := h.mpr hx
        simp [hb] at this
      omega
    by_cases ht : s.totalVulnerabilities = 0
    · rw [getShipReadinessOf_branch_a s hb ht]
      exact ⟨by simp [hz], ⟨rfl, rfl, rfl, rfl⟩, fun _ => rfl,
        fun hc => absurd ht hc.2.2, fun hc => by omega,
        Or.inl ⟨hz.1, hz.2, ht⟩, by omega, by omega⟩
    · rw [getShipReadinessOf_branch_b s hb ht]
      exact ⟨by simp [hz], ⟨rfl, rfl, rfl, rfl⟩, fun hc => absurd hc.2.2 ht,
        fun _ => rfl, fun hc => by omega,
        Or.inr (Or.inl ⟨hz.1, hz.2, ht⟩), by omega, by omega⟩
  · have hpos : 0 < s.counts.critical ∨ 0 < s.counts.high := h.mp hb
    rw [getShipReadinessOf_branch_c s hb]
    exact ⟨by simp <;> omega, ⟨rfl, rfl, rfl, rfl⟩, fun hc => by omega,
      fun hc => by omega, fun _ => rfl, Or.inr (Or.inr hpos), by omega, by omega⟩

theorem ship_readiness_policy_witness :
    (getShipReadinessOf emptyAuditSummary).safeToShip = true
    ∧ (getShipReadinessOf emptyAuditSummary).reason = shipReasonNoVulns := by
  have h := ship_readiness_policy emptyAuditSummary (by simp [emptyAuditSummary])
  exact ⟨h.1.mpr ⟨rfl, rfl⟩, h.2.2.1 ⟨rfl, rfl, rfl⟩⟩

theorem scoreDescLE_trans (a b c : Vulnerability) :
    scoreDescLE a b → scoreDescLE b c → scoreDescLE a c := by
  simp only [scoreDescLE, decide_eq_true_eq]
  omega

theorem scoreDescLE_total (a b : Vulnerability) : scoreDescLE a b || scoreDescLE b a := by
  simp only [scoreDescLE, Bool.or_eq_true, decide_eq_true_eq]
  omega

theorem highestRisk_allBySeverity (s : AuditSummary) :
    (getHighestRiskDependencyOf s).allBySeverity
      = s.vulnerabilities.mergeSort scoreDescLE := rfl

theorem highestRisk_head (s : AuditSummary) :
    (getHighestRiskDependencyOf s).highest
      = (getHighestRiskDependencyOf s).allBySeverity.head? := rfl

/-- C8: highest-risk selection stable-sorts descending by SEVERITY_SCORE (equal-score
pairs keep their original relative order), reports the head of that order (none on an
empty list), and is idempotent: re-running it on the sorted output changes neither the
highest element nor the ordering. -/
theorem highest_risk_selection (s : AuditSummary) (a b : Vulnerability) :
    (getHighestRiskDependencyOf s).allBySeverity.Pairwise
      (fun x y => SEVERITY_SCORE y.severity ≤ SEVERITY_SCORE x.severity)
    ∧ (SEVERITY_SCORE a.severity = SEVERITY_SCORE b.severity →
        [a, b].Sublist s.vulnerabilities →
        [a, b].Sublist (getHighestRiskDependencyOf s).allBySeverity)
    ∧ (getHighestRiskDependencyOf s).highest
        = (getHighestRiskDependencyOf s).allBySeverity.head?
    ∧ (s.vulnerabilities = [] → (getHighestRiskDependencyOf s).highest = none)
    ∧ (getHighestRiskDependencyOf
        { s with vulnerabilities := (getHighestRiskDependencyOf s).allBySeverity }).highest
        = (getHighestRiskDependencyOf s).highest
    ∧ (getHighestRiskDependencyOf
        { s with vulnerabilities := (getHighestRiskDependencyOf s).allBySeverity }).allBySeverity
        = (getHighestRiskDependencyOf s).allBySeverity := by
  have hsorted := List.sorted_mergeSort scoreDescLE_trans scoreDescLE_total s.vulnerabilities
  have hidem : (s.vulnerabilities.mergeSort scoreDescLE).mergeSort scoreDescLE
      = s.vulnerabilities.mergeSort scoreDescLE :=
    List.mergeSort_of_sorted hsorted
  refine ⟨?_, ?_, rfl, ?_, ?_, ?_⟩
  · rw [highestRisk_allBySeverity]
    exact hsorted.imp (fun hxy => by simpa [scoreDescLE] using hxy)
  · intro hab hsub
    rw [highestRisk_allBySeverity]
    refine List.pair_sublist_mergeSort scoreDescLE_trans scoreDescLE_total ?_ hsub
    simp [scoreDescLE, hab]
  · intro hnil
    simp [getHighestRiskDependencyOf, hnil]
  · simp only [getHighestRiskDependencyOf, highestRisk_allBySeverity]
    rw [hidem]
  · simp only [getHighestRiskDependencyOf, highestRisk_allBySeverity]
    rw [hidem]

theorem highest_risk_selection_witness :
    (getHighestRiskDependencyOf emptyAuditSummary).highest = none
    ∧ [({ name := "a", severity := .low } : Vulnerability),
       ({ name := "b", severity := .low } : Vulnerability)].Sublist
        (getHighestRiskDependencyOf
          { counts := {}, totalVulnerabilities := 2, hasCriticalOrHigh := false,
            vulnerabilities := [{ name := "a", severity := .low },
              { name := "b", severity := .low }] }).allBySeverity :=
  ⟨(highest_risk_selection emptyAuditSummary
      { name := "a", severity := .low } { name := "b", severity := .low }).2.2.2.1 rfl,
   (highest_risk_selection
      { counts := {}, totalVulnerabilities := 2, hasCriticalOrHigh := false,
        vulnerabilities := [{ name := "a", severity := .low },
          { name := "b", severity := .low }] }
      { name := "a", severity := .low } { name := "b", severity := .low }).2.1
      rfl (List.Sublist.refl _)⟩

theorem suggestionScoreDescLE_trans (a b c : UpgradeSuggestion) :
    suggestionScoreDescLE a b → suggestionScoreDescLE b c → suggestionScoreDescLE a c := by
  simp only [suggestionScoreDescLE, decide_eq_true_eq]
  omega

theorem suggestionScoreDescLE_total (a b : UpgradeSuggestion) :
    suggestionScoreDescLE a b || suggestionScoreDescLE b a := by
  simp only [suggestionScoreDescLE, Bool.or_eq_true, decide_eq_true_eq]
  omega

theorem collect_package_not_seen (isPip : Bool) :
    ∀ (vulns : List Vulnerability) (seen : List String) (u : UpgradeSuggestion),
      u ∈ collectSuggestions isPip vulns seen → seen.contains u.package = false := by
  intro vulns
  induction vulns with
  | nil => intro seen u hu; simp [collectSuggestions] at hu
  | cons v rest ih =>
    intro seen u hu
    by_cases hcond : fixTruthy v.fixAvailable && !seen.contains v.name
    · rw [collectSuggestions, if_pos hcond] at hu
      rcases List.mem_cons.mp hu with hu | hu
      · subst hu
        have := hcond
        simp only [Bool.and_eq_true, Bool.not_eq_true'] at this
        simpa [mkUpgradeSuggestion] using this.2
      · have h2 := ih (v.name :: seen) u hu
        simp only [List.contains_cons, Bool.or_eq_false_iff] at h2
        exact h2.2
    · rw [collectSuggestions, if_neg hcond] at hu
      exact ih seen u hu

theorem collect_first_fix_wins (isPip : Bool) :
    ∀ (vulns : List Vulnerability) (seen : List String) (u : UpgradeSuggestion),
      u ∈ collectSuggestions isPip vulns seen →
      ∃ v, vulns.find? (fun w => w.name == u.package && fixTruthy w.fixAvailable) = some v
        ∧ u = mkUpgradeSuggestion isPip v := by
  intro vulns
  induction vulns with
  | nil => intro seen u hu; simp [collectSuggestions] at hu
  | cons v rest ih =>
    intro seen u hu
    by_cases hcond : fixTruthy v.fixAvailable && !seen.contains v.name
    · have hfix : fixTruthy v.fixAvailable = true := by
        have := hcond
        simp only [Bool.and_eq_true] at this
        exact this.1
      rw [collectSuggestions, if_pos hcond] at hu
      rcases List.mem_cons.mp hu with hu | hu
      · subst hu
        refine ⟨v, ?_, rfl⟩
        rw [List.find?_cons_of_pos]
        simp [mkUpgradeSuggestion, hfix]
      · have hne : u.package ≠ v.name := by
          have h2 := collect_package_not_seen isPip rest (v.name :: seen) u hu
          simp only [List.contains_cons, Bool.or_eq_false_iff, beq_eq_false_iff_ne] at h2
          exact h2.1
        obtain ⟨w, hw, hwu⟩ := ih (v.name :: seen) u hu
        refine ⟨w, ?_, hwu⟩
        rw [List.find?_cons_of_neg, hw]
        simp [hne.symm]
    · rw [collectSuggestions, if_neg hcond] at hu
      obtain ⟨w, hw, hwu⟩ := ih seen u hu
      by_cases hfix : fixTruthy v.fixAvailable
      · have hseen : seen.contains v.name = true := by
          by_contra hc
          exact hcond (by simp [hfix, Bool.not_eq_true] at hc ⊢; simp [hc])
        have hne : u.package ≠ v.name := by
          have h2 := collect_package_not_seen isPip rest seen u hu
          intro he
          rw [he] at h2
          rw [h2] at hseen
          exact Bool.false_ne_true hseen
        refine ⟨w, ?_, hwu⟩
        rw [List.find?_cons_of_neg, hw]
        simp [hne.symm]
      · refine ⟨w, ?_, hwu⟩
        rw [List.find?_cons_of_neg, hw]
        simp [hfix]

theorem collect_complete (isPip : Bool) :
    ∀ (vulns : List Vulnerability) (seen : List String) (v : Vulnerability),
      v ∈ vulns → fixTruthy v.fixAvailable = true →
      seen.contains v.name = true
        ∨ v.name ∈ (collectSuggestions isPip vulns seen).map (fun u => u.package) := by
  intro vulns
  induction vulns with
  | nil => intro seen v hv; simp at hv
  | cons w rest ih =>
    intro seen v hv hfix
    by_cases hcond : fixTruthy w.fixAvailable && !seen.contains w.name
    · rw [collectSuggestions, if_pos hcond]
      rcases List.mem_cons.mp hv with hv | hv
      · subst hv
        right
        simp [mkUpgradeSuggestion]
      · rcases ih (w.name :: seen) v hv hfix with hs | hs
        · simp only [List.contains_cons, Bool.or_eq_true] at hs
          rcases hs with hs | hs
          · right
            simp only [List.map_cons, List.mem_cons]
            left
            simpa [mkUpgradeSuggestion, eq_comm] using (beq_iff_eq.mp hs)
          · exact Or.inl hs
        · right
          simp only [List.map_cons, List.mem_cons]
          exact Or.inr hs
    · rw [collectSuggestions, if_neg hcond]
      rcases List.mem_cons.mp hv with hv | hv
      · subst hv
        left
        by_contra hc
        exact hcond (by simp [hfix, Bool.not_eq_true] at hc ⊢; simp [hc])
      · exact ih seen v hv hfix

theorem collect_packages_nodup (isPip : Bool) :
    ∀ (vulns : List Vulnerability) (seen : List String),
      ((collectSuggestions isPip vulns seen).map (fun u => u.package)).Nodup := by
  intro vulns
  induction vulns with
  | nil => intro seen; simp [collectSuggestions]
  | cons v rest ih =>
    intro seen
    by_cases hcond : fixTruthy v.fixAvailable && !seen.contains v.name
    · rw [collectSuggestions, if_pos hcond]
      simp only [List.map_cons, List.nodup_cons]
      refine ⟨?_, ih (v.name :: seen)⟩
      intro hmem
      obtain ⟨u, hu, hup⟩ := List.mem_map.mp hmem
      have h2 := collect_package_not_seen isPip rest (v.name :: seen) u hu
      rw [hup] at h2
      simp [mkUpgradeSuggestion, List.contains_cons] at h2
    · rw [collectSuggestions, if_neg hcond]
      exact ih seen

theorem upgrade_suggestions_fst (projectType : Option ProjectType) (audit : AuditSummary) :
    (getUpgradeSuggestionsOf projectType audit).1
      = (collectSuggestions (decide (projectType = some ProjectType.python))
          audit.vulnerabilities []).mergeSort suggestionScoreDescLE := rfl

/-- C7: the upgrade-suggestion list has at most one entry per distinct package name;
every entry comes from the first finding with a usable fix for that package (so
findings whose fix availability is absent or boolean-false are skipped, and later
findings for an already-emitted package are ignored); each target is the concrete fix
version string or "latest" when only a boolean-true flag was present; and the final
list is sorted non-increasing by severity score. -/
theorem upgrade_suggestions_spec (projectType : Option ProjectType) (audit : AuditSummary) :
    ((getUpgradeSuggestionsOf projectType audit).1.map (fun u => u.package)).Nodup
    ∧ (getUpgradeSuggestionsOf projectType audit).1.Pairwise
        (fun x y => SEVERITY_SCORE y.severity ≤ SEVERITY_SCORE x.severity)
    ∧ (∀ u ∈ (getUpgradeSuggestionsOf projectType audit).1,
        ∃ v, audit.vulnerabilities.find?
              (fun w => w.name == u.package && fixTruthy w.fixAvailable) = some v
          ∧ u = mkUpgradeSuggestion (decide (projectType = some ProjectType.python)) v
          ∧ u.target = suggestionTarget v.fixAvailable
          ∧ (∀ x : String, v.fixAvailable = FixAvailable.version x → u.target = x)
          ∧ (v.fixAvailable = FixAvailable.flag true → u.target = "latest"))
    ∧ (∀ v ∈ audit.vulnerabilities, fixTruthy v.fixAvailable = true →
        v.name ∈ (getUpgradeSuggestionsOf projectType audit).1.map (fun u => u.package))
    ∧ (∀ v : Vulnerability,
        v.fixAvailable = FixAvailable.absent ∨ v.fixAvailable = FixAvailable.flag false →
        fixTruthy v.fixAvailable = false) := by
  set isPip := decide (projectType = some ProjectType.python) with hisPip
  have hperm := List.mergeSort_perm
    (collectSuggestions isPip audit.vulnerabilities []) suggestionScoreDescLE
  refine ⟨?_, ?_, ?_, ?_, ?_⟩
  · rw [upgrade_suggestions_fst]
    exact ((hperm.map (fun u => u.package)).nodup_iff).mpr
      (collect_packages_nodup isPip audit.vulnerabilities [])
  · rw [upgrade_suggestions_fst]
    exact (List.sorted_mergeSort suggestionScoreDescLE_trans suggestionScoreDescLE_total
      (collectSuggestions isPip audit.vulnerabilities [])).imp
      (fun hxy => by simpa [suggestionScoreDescLE] using hxy)
  · intro u hu
    rw [upgrade_suggestions_fst] at hu
    have hu2 := hperm.mem_iff.mp hu
    obtain ⟨v, hfind, hmk⟩ := collect_first_fix_wins isPip audit.vulnerabilities [] u hu2
    refine ⟨v, hfind, hmk, ?_, ?_, ?_⟩
    · rw [hmk]
      rfl
    · intro x hx
      rw [hmk]
      simp [mkUpgradeSuggestion, suggestionTarget, hx]
    · intro hx
      rw [hmk]
      simp [mkUpgradeSuggestion, suggestionTarget, hx]
  · intro v hv hfix
    rcases collect_complete isPip audit.vulnerabilities [] v hv hfix with hs | hs
    · simp at hs
    · rw [upgrade_suggestions_fst]
      exact ((hperm.map (fun u => u.package)).mem_iff).mpr hs
  · intro v hv
    rcases hv with hv | hv <;> simp [fixTruthy, hv]

theorem upgrade_suggestions_spec_witness :
    ((getUpgradeSuggestionsOf (some ProjectType.node)
      { counts := {}, totalVulnerabilities := 2, hasCriticalOrHigh := false,
        vulnerabilities := [{ name := "a", severity := .low, fixAvailable := .version "1.2" },
          { name := "b", severity := .critical, fixAvailable := .flag true }] }).1.map
        (fun u => u.package)).Nodup :=
  (upgrade_suggestions_spec (some ProjectType.node)
    { counts := {}, totalVulnerabilities := 2, hasCriticalOrHigh := false,
      vulnerabilities := [{ name := "a", severity := .low, fixAvailable := .version "1.2" },
        { name := "b", severity := .critical, fixAvailable := .flag true }] }).1

theorem sliceLast_length_le (n : Nat) (l : List α) : (sliceLast n l).length ≤ n := by
  simp only [sliceLast, List.length_drop]
  omega

theorem sliceLast_of_le {n : Nat} {l : List α} (h : l.length ≤ n) : sliceLast n l = l := by
  simp [sliceLast, Nat.sub_eq_zero_of_le h]

theorem sliceLast_append_left (n : Nat) (l m : List α) :
    sliceLast n (sliceLast n l ++ m) = sliceLast n (l ++ m) := by
  simp only [sliceLast, List.length_append, List.length_drop,
    List.drop_append_eq_append_drop, List.drop_drop]
  congr 1 <;> congr 1 <;> omega

theorem compare_snd (store : ScanStore) (repoId : String) (cur : AuditSummary)
    (opts : ScanMeta) (t id : String) :
    (compareScansOverTime store repoId cur opts t id).2
      = fun k => if k = repoId
          then sliceLast MAX_SCANS_PER_REPO
            (store repoId ++ [mkSavedScan repoId ⟨cur, opts, t, id⟩])
          else store k := rfl

theorem compareScanFold_eq (repoId : String) (inputs : List CompareCallInput) :
    ∀ store : ScanStore, (store repoId).length ≤ MAX_SCANS_PER_REPO →
      compareScanFold repoId store inputs repoId
        = sliceLast MAX_SCANS_PER_REPO (store repoId ++ inputs.map (mkSavedScan repoId)) := by
  induction inputs with
  | nil =>
    intro store h
    simpa [compareScanFold] using (sliceLast_of_le h).symm
  | cons inp rest ih =>
    intro store h
    have hstep : (compareScansOverTime store repoId inp.summary inp.options
          inp.scannedAt inp.scanId).2 repoId
        = sliceLast MAX_SCANS_PER_REPO (store repoId ++ [mkSavedScan repoId inp]) := by
      rw [compare_snd]
      simp
    have hle : ((compareScansOverTime store repoId inp.summary inp.options
          inp.scannedAt inp.scanId).2 repoId).length ≤ MAX_SCANS_PER_REPO := by
      rw [hstep]
      exact sliceLast_length_le _ _
    calc compareScanFold repoId store (inp :: rest) repoId
        = compareScanFold repoId ((compareScansOverTime store repoId inp.summary
            inp.options inp.scannedAt inp.scanId).2) rest repoId := by
          simp [compareScanFold, List.foldl_cons]
      _ = sliceLast MAX_SCANS_PER_REPO ((compareScansOverTime store repoId inp.summary
            inp.options inp.scannedAt inp.scanId).2 repoId ++ rest.map (mkSavedScan repoId)) :=
          ih _ hle
      _ = sliceLast MAX_SCANS_PER_REPO (store repoId ++ (inp :: rest).map (mkSavedScan repoId)) := by
          rw [hstep, sliceLast_append_left]
          simp

theorem compare_fst_of_getLast_none (store : ScanStore) (repoId : String)
    (cur : AuditSummary) (opts : ScanMeta) (t id : String)
    (h : (store repoId).getLast? = none) :
    (compareScansOverTime store repoId cur opts t id).1
      = { repoId := repoId,
          baseline := ⟨t, cur.counts, cur.totalVulnerabilities⟩,
          current := ⟨t, cur.counts, cur.totalVulnerabilities⟩,
          fixed := [], introduced := [],
          summary := firstScanMessage repoId cur.totalVulnerabilities,
          isFirstScan := some true } := by
  simp [compareScansOverTime, h]

theorem compare_fst_of_getLast_some (store : ScanStore) (repoId : String)
    (cur : AuditSummary) (opts : ScanMeta) (t id : String) (prev : SavedScan)
    (h : (store repoId).getLast? = some prev) :
    (compareScansOverTime store repoId cur opts t id).1
      = { repoId := repoId,
          baseline := ⟨prev.scannedAt, prev.summary.counts, prev.summary.totalVulnerabilities⟩,
          current := ⟨t, cur.counts, cur.totalVulnerabilities⟩,
          fixed := (diffVulnerabilities prev.summary.vulnerabilities cur.vulnerabilities).1,
          introduced := (diffVulnerabilities prev.summary.vulnerabilities cur.vulnerabilities).2,
          summary := comparedMessage repoId prev.scannedAt t
            (diffVulnerabilities prev.summary.vulnerabilities cur.vulnerabilities).1.length
            (diffVulnerabilities prev.summary.vulnerabilities cur.vulnerabilities).2.length
            ((cur.totalVulnerabilities : Int) - (prev.summary.totalVulnerabilities : Int)),
          isFirstScan := none } := by
  simp [compareScansOverTime, h]

theorem diffVulnerabilities_self (l : List Vulnerability) :
    diffVulnerabilities l l = ([], []) := by
  have h : ∀ v ∈ l, (l.map vulnKey).contains (vulnKey v) = true :=
    fun v hv => List.elem_eq_true_of_mem (List.mem_map_of_mem _ hv)
  simp only [diffVulnerabilities, Prod.mk.injEq]
  constructor <;> rw [List.filter_eq_nil_iff] <;> intro v hv <;> simp [h v hv] <;>
    exact ⟨v, hv, rfl⟩

/-- C5: compareScansOverTime on a previously-unseen key returns a first-scan result
(isFirstScan = true, empty fixed/introduced, baseline = current); on a key with prior
history it diffs the immediately preceding saved scan against the current summary
keyed solely on (package name, severity); hence a second call with an identical
summary yields empty fixed/introduced and a zero total delta. -/
theorem compare_scans_policy
    (store : ScanStore) (repoId : String) (s : AuditSummary) (opts : ScanMeta)
    (t1 id1 t2 id2 : String) (h : store repoId = [])
    (store2 : ScanStore) (rest : List SavedScan) (prev : SavedScan)
    (h2 : store2 repoId = rest ++ [prev])
    (c2 : AuditSummary) (o2 : ScanMeta) (t3 id3 : String) :
    ((compareScansOverTime store repoId s opts t1 id1).1.isFirstScan = some true
      ∧ (compareScansOverTime store repoId s opts t1 id1).1.fixed = []
      ∧ (compareScansOverTime store repoId s opts t1 id1).1.introduced = []
      ∧ (compareScansOverTime store repoId s opts t1 id1).1.baseline
          = (compareScansOverTime store repoId s opts t1 id1).1.current)
    ∧ ((compareScansOverTime (compareScansOverTime store repoId s opts t1 id1).2
          repoId s opts t2 id2).1.fixed = []
      ∧ (compareScansOverTime (compareScansOverTime store repoId s opts t1 id1).2
          repoId s opts t2 id2).1.introduced = []
      ∧ (compareScansOverTime (compareScansOverTime store repoId s opts t1 id1).2
          repoId s opts t2 id2).1.current.totalVulnerabilities
          = (compareScansOverTime (compareScansOverTime store repoId s opts t1 id1).2
              repoId s opts t2 id2).1.baseline.totalVulnerabilities)
    ∧ ((compareScansOverTime store2 repoId c2 o2 t3 id3).1.fixed
        = prev.summary.vulnerabilities.filter
            (fun v => !(c2.vulnerabilities.map vulnKey).contains (vulnKey v))
      ∧ (compareScansOverTime store2 repoId c2 o2 t3 id3).1.introduced
        = c2.vulnerabilities.filter
            (fun v => !(prev.summary.vulnerabilities.map vulnKey).contains (vulnKey v))
      ∧ (compareScansOverTime store2 repoId c2 o2 t3 id3).1.baseline
          = ⟨prev.scannedAt, prev.summary.counts, prev.summary.totalVulnerabilities⟩)
    ∧ (∀ v w : Vulnerability, v.name = w.name → v.severity = w.severity →
        vulnKey v = vulnKey w) := by
  have hnone : (store repoId).getLast? = none := by
    rw [h]
    rfl
  have hfst := compare_fst_of_getLast_none store repoId s opts t1 id1 hnone
  refine ⟨?_, ?_, ?_, ?_⟩
  · rw [hfst]
    exact ⟨rfl, rfl, rfl, rfl⟩
  · have hsome : ((compareScansOverTime store repoId s opts t1 id1).2 repoId).getLast?
        = some (mkSavedScan repoId ⟨s, opts, t1, id1⟩) := by
      rw [compare_snd]
      simp [h, sliceLast, MAX_SCANS_PER_REPO]
    rw [compare_fst_of_getLast_some _ _ _ _ _ _ _ hsome]
    exact ⟨by rw [show (mkSavedScan repoId ⟨s, opts, t1, id1⟩).summary = s from rfl,
        diffVulnerabilities_self],
      by rw [show (mkSavedScan repoId ⟨s, opts, t1, id1⟩).summary = s from rfl,
        diffVulnerabilities_self],
      rfl⟩
  · have hsome2 : (store2 repoId).getLast? = some prev := by
      rw [h2]
      exact List.getLast?_concat rest
    rw [compare_fst_of_getLast_some _ _ _ _ _ _ _ hsome2]
    exact ⟨rfl, rfl, rfl⟩
  · intro v w hn hs
    simp [vulnKey, hn, hs]

theorem compare_scans_policy_witness :
    (compareScansOverTime (fun _ => []) "k" emptyAuditSummary {} "t1" "i1").1.isFirstScan
      = some true :=
  (compare_scans_policy (fun _ => []) "k" emptyAuditSummary {} "t1" "i1" "t2" "i2" rfl
    (fun _ => [⟨"i0", "k", none, none, "t0", emptyAuditSummary, none⟩]) []
    ⟨"i0", "k", none, none, "t0", emptyAuditSummary, none⟩ rfl
    emptyAuditSummary {} "t3" "i3").1.1

/-- C6: one compareScansOverTime call never leaves more than MAX_SCANS_PER_REPO = 20
entries under a key, and 25 successive calls on one fresh key leave exactly the 20
most recent scans (the oldest 5 evicted first, FIFO). -/
theorem scan_history_retention (repoId : String) (store : ScanStore)
    (inputs : List CompareCallInput)
    (h0 : store repoId = []) (h25 : inputs.length = 25)
    (st : ScanStore) (inp : CompareCallInput) :
    ((compareScansOverTime st repoId inp.summary inp.options inp.scannedAt inp.scanId).2
        repoId).length ≤ MAX_SCANS_PER_REPO
    ∧ compareScanFold repoId store inputs repoId
        = (inputs.map (mkSavedScan repoId)).drop 5
    ∧ (compareScanFold repoId store inputs repoId).length = 20 := by
  have hfold := compareScanFold_eq repoId inputs store (by rw [h0]; simp)
  have hmain : compareScanFold repoId store inputs repoId
      = (inputs.map (mkSavedScan repoId)).drop 5 := by
    rw [hfold, h0]
    simp [sliceLast, h25, MAX_SCANS_PER_REPO]
  refine ⟨?_, hmain, ?_⟩
  · have hh := sliceLast_length_le MAX_SCANS_PER_REPO
      (st repoId ++ [mkSavedScan repoId ⟨inp.summary, inp.options, inp.scannedAt, inp.scanId⟩])
    simpa [compare_snd] using hh
  · rw [hmain]
    simp [h25]

theorem scan_history_retention_witness :
    (compareScanFold "k" (fun _ => [])
      (List.replicate 25 ⟨emptyAuditSummary, {}, "t", "i"⟩) "k").length = 20 :=
  (scan_history_retention "k" (fun _ => [])
    (List.replicate 25 ⟨emptyAuditSummary, {}, "t", "i"⟩) rfl (by simp)
    (fun _ => []) ⟨emptyAuditSummary, {}, "t", "i"⟩).2.2

/-- C3: the asymmetric severity-fallback policies.  Adapter A (npm): an absent
severity defaults to moderate; a finding with an unrecognized severity is dropped
entirely (the summary, list and counts are unchanged by appending it); the counts are
copied from the metadata block (zero when a level is absent there), never recomputed
from the list.  Adapter B (pip): a finding with unrecognized or missing severity is
counted and listed as high, and "medium" translates to moderate. -/
theorem adapter_severity_fallbacks
    (n1 : String) (v1 : NpmAuditVuln) (h1 : v1.severity = none)
    (audit : NpmAuditJson) (entries : List (String × NpmAuditVuln))
    (n2 : String) (v2 : NpmAuditVuln) (s2 : String)
    (h2 : v2.severity = some s2) (h3 : parseSeverityLevel s2 = none)
    (p : List PipAuditDep) (dn dver : String) (pv : PipAuditVuln)
    (h4 : ∀ x, pv.known_severity = some x → pipSeverityMap x.toLower = none) :
    npmVulnEntry (n1, v1) = some (mkNpmVuln n1 v1 SeverityLevel.moderate)
    ∧ normalizeNpmAudit audit (entries ++ [(n2, v2)]) = normalizeNpmAudit audit entries
    ∧ (∀ t, (normalizeNpmAudit audit entries).counts.get t = npmMetaCount audit t)
    ∧ (normalizePipAuditToSummary (.arr (p ++ [⟨dn, dver, some [pv]⟩]))).vulnerabilities
        = (normalizePipAuditToSummary (.arr p)).vulnerabilities ++ [mkPipVuln dn dver pv]
    ∧ (mkPipVuln dn dver pv).severity = SeverityLevel.high
    ∧ (normalizePipAuditToSummary (.arr (p ++ [⟨dn, dver, some [pv]⟩]))).counts.high
        = (normalizePipAuditToSummary (.arr p)).counts.high + 1
    ∧ (∀ m : String, m.toLower = "medium" → pipSeverity (some m) = SeverityLevel.moderate) := by
  have hdrop : npmVulnEntry (n2, v2) = none := by
    simp [npmVulnEntry, h2, h3]
  have hent : pipEntries (.arr (p ++ [⟨dn, dver, some [pv]⟩]))
      = pipEntries (.arr p) ++ [(dn, dver, pv)] := by
    simp [pipEntries, pipDeps]
  have hsev : pipSeverity pv.known_severity = SeverityLevel.high := by
    rcases hks : pv.known_severity with _ | x
    · rfl
    · simp only [pipSeverity]
      by_cases hx : x.toLower = ""
      · simp [hx]
      · simp [hx, h4 x hks]
  refine ⟨?_, ?_, ?_, ?_, ?_, ?_, ?_⟩
  · simp [npmVulnEntry, h1, parseSeverityLevel]
  · simp [normalizeNpmAudit, List.filterMap_append, hdrop]
  · intro t
    cases t <;> rfl
  · rw [normalizePip_vulns, normalizePip_vulns, hent, List.map_append]
    rfl
  · rw [mkPipVuln_severity, hsev]
  · show (normalizePipAuditToSummary (.arr (p ++ [⟨dn, dver, some [pv]⟩]))).counts.get .high
        = (normalizePipAuditToSummary (.arr p)).counts.get .high + 1
    rw [normalizePip_counts, normalizePip_counts, hent, List.countP_append]
    simp [hsev]
  · intro m hm
    simp [pipSeverity, hm, pipSeverityMap]

theorem adapter_severity_fallbacks_witness :
    npmVulnEntry ("lodash", { severity := none })
      = some (mkNpmVuln "lodash" { severity := none } SeverityLevel.moderate)
    ∧ (mkPipVuln "requests" "1.0" { known_severity := none }).severity
      = SeverityLevel.high :=
  ⟨(adapter_severity_fallbacks "lodash" { severity := none } rfl {} [] "x"
      { severity := some "bogus" } "bogus" rfl rfl [] "requests" "1.0"
      { known_severity := none } (fun _ hx => Option.noConfusion hx)).1,
   (adapter_severity_fallbacks "lodash" { severity := none } rfl {} [] "x"
      { severity := some "bogus" } "bogus" rfl rfl [] "requests" "1.0"
      { known_severity := none } (fun _ hx => Option.noConfusion hx)).2.2.2.2.1⟩

/-- C9: target identity resolution is deterministic over the three-form key namespace:
the full-URL, host-prefixed and shorthand forms of acme/widgets all resolve to
"acme/widgets"; subpath "frontend/" yields "acme/widgets:frontend" (separators
trimmed); the ref is never part of the key; and without a remote spec the key is
"local:" followed by the path resolved against the working directory (the working
directory itself when no local path is given). -/
theorem repo_identity_resolution (resolvePath : String → String) (cwd : String)
    (opts : RepoIdOptions) (r1 r2 : Option String) (p : String) (hp : p ≠ "") :
    getRepoId resolvePath cwd { githubRepo := some "https://github.com/acme/widgets.git" }
      = Except.ok "acme/widgets"
    ∧ getRepoId resolvePath cwd { githubRepo := some "github.com/acme/widgets" }
      = Except.ok "acme/widgets"
    ∧ getRepoId resolvePath cwd { githubRepo := some "acme/widgets" }
      = Except.ok "acme/widgets"
    ∧ getRepoId resolvePath cwd
        { githubRepo := some "acme/widgets", subpath := some "frontend/" }
      = Except.ok "acme/widgets:frontend"
    ∧ getRepoId resolvePath cwd { opts with ref := r1 }
      = getRepoId resolvePath cwd { opts with ref := r2 }
    ∧ getRepoId resolvePath cwd { projectPath := some p }
      = Except.ok ("local:" ++ resolvePath p)
    ∧ getRepoId resolvePath cwd {} = Except.ok ("local:" ++ cwd) := by
  refine ⟨rfl, rfl, rfl, rfl, ?_, ?_, rfl⟩
  · obtain ⟨g, r, sp, pp⟩ := opts
    rfl
  · simp [getRepoId, truthyOptStr, hp]

theorem repo_identity_resolution_witness :
    getRepoId (fun q => "/work/" ++ q) "/work"
      { githubRepo := some "https://github.com/acme/widgets.git" }
      = Except.ok "acme/widgets"
    ∧ getRepoId (fun q => "/work/" ++ q) "/work" { projectPath := some "app" }
      = Except.ok ("local:" ++ ("/work/" ++ "app")) :=
  ⟨(repo_identity_resolution (fun q => "/work/" ++ q) "/work" {} none none "app"
      (by decide)).1,
   (repo_identity_resolution (fun q => "/work/" ++ q) "/work" {} none none "app"
      (by decide)).2.2.2.2.2.1⟩
